import Mathlib

/-!
Verification development for the leeboardtools repository: shallow embeddings of
the asset multi-load coordinator and include expansion (js/leeboard/core/Assets.js),
the camera controller zoom handling (LBUI3d camera framework), the sail-sim
propulsor and boat catalog (LBSailSim), and the transit tracker prediction
batching, shape/stop alignment, route-category seeding and prediction message
formatting (TheBigT/js/main.js and the v1 prototype).

Numbers are embedded as rationals; JavaScript floating point rounding is not
modelled. Machine exceptions (TypeError on a property access of null/undefined)
are modelled with Except or explicit status values.
-/

namespace LBMath

/-- Modelled from the spec: LBMath.clamp from the unshown lbmath peer module.
The spec describes it as clamping a value into the closed interval between the
two bounds (used by Propulsor.updateForce and CameraController.setZoom). -/
def clamp (val lo hi : ℚ) : ℚ := max lo (min val hi)

theorem clamp_le (val lo hi : ℚ) (h : lo ≤ hi) : clamp val lo hi ≤ hi := by
  simp only [clamp, max_le_iff]
  exact ⟨h, min_le_right _ _⟩

theorem le_clamp (val lo hi : ℚ) : lo ≤ clamp val lo hi := le_max_left _ _

theorem clamp_eq_of_mem (val lo hi : ℚ) (h1 : lo ≤ val) (h2 : val ≤ hi) :
    clamp val lo hi = val := by
  simp [clamp, min_eq_left h2, max_eq_right h1]

theorem clamp_shrink_lt (x : ℚ) (hx : 1/40 < x) :
    clamp (x * (3/4)) (1/40) 150 < x := by
  have hpos : 0 < x := lt_trans (by norm_num) hx
  simp only [clamp, max_lt_iff]
  constructor
  · exact hx
  · calc min (x * (3/4)) 150 ≤ x * (3/4) := min_le_left _ _
      _ < x := by linarith

theorem clamp_grow_gt (x : ℚ) (hlo : 1/40 ≤ x) (hx : x < 150) :
    x < clamp (x * (3/2)) (1/40) 150 := by
  have hpos : 0 < x := lt_of_lt_of_le (by norm_num) hlo
  simp only [clamp, lt_max_iff]
  right
  simp only [lt_min_iff]
  exact ⟨by linarith, hx⟩

end LBMath

namespace UI3d

/-- Zoom-related state of LBUI3d.CameraController (part_000): the current zoom
scale together with the zoom bounds set in the constructor
(zoomScale = 1, minZoomScale = 0.025, maxZoomScale = 150). -/
structure CameraController where
  zoomScale : ℚ
  minZoomScale : ℚ
  maxZoomScale : ℚ
deriving DecidableEq

/-- The controller as built by the LBUI3d.CameraController constructor. -/
def initController : CameraController := ⟨1, 1/40, 150⟩

/-- CameraController.prototype.setZoom: clamps the requested zoom into
[minZoomScale, maxZoomScale] and stores it when it differs from the current
value (the perspective camera projection update has no effect on this state). -/
def setZoom (c : CameraController) (zoom : ℚ) : CameraController :=
  if LBMath.clamp zoom c.minZoomScale c.maxZoomScale ≠ c.zoomScale then
    { c with zoomScale := LBMath.clamp zoom c.minZoomScale c.maxZoomScale }
  else c

/-- CameraController.prototype.handleMouseWheel: deltaY < 0 multiplies the zoom
scale by 0.75, deltaY > 0 multiplies it by 1.5, the result going through
setZoom. -/
def handleMouseWheel (c : CameraController) (deltaY : ℚ) : CameraController :=
  if deltaY < 0 then setZoom c (c.zoomScale * (3/4))
  else if deltaY > 0 then setZoom c (c.zoomScale * (3/2))
  else c

theorem setZoom_zoomScale (c : CameraController) (z : ℚ) :
    (setZoom c z).zoomScale = LBMath.clamp z c.minZoomScale c.maxZoomScale := by
  unfold setZoom
  by_cases h : LBMath.clamp z c.minZoomScale c.maxZoomScale ≠ c.zoomScale
  · simp [h]
  · push_neg at h
    simp [h]

theorem setZoom_keeps_limits (c : CameraController) (z : ℚ) :
    (setZoom c z).minZoomScale = c.minZoomScale ∧
      (setZoom c z).maxZoomScale = c.maxZoomScale := by
  unfold setZoom
  split <;> simp

theorem handleMouseWheel_keeps_limits (c : CameraController) (d : ℚ) :
    (handleMouseWheel c d).minZoomScale = c.minZoomScale ∧
      (handleMouseWheel c d).maxZoomScale = c.maxZoomScale := by
  unfold handleMouseWheel
  split
  · exact setZoom_keeps_limits c _
  · split
    · exact setZoom_keeps_limits c _
    · exact ⟨rfl, rfl⟩

theorem handleMouseWheel_limits (c : CameraController) (d : ℚ)
    (hmin : c.minZoomScale = 1/40) (hmax : c.maxZoomScale = 150)
    (hlo : 1/40 ≤ c.zoomScale) (hhi : c.zoomScale ≤ 150) :
    1/40 ≤ (handleMouseWheel c d).zoomScale ∧
      (handleMouseWheel c d).zoomScale ≤ 150 := by
  unfold handleMouseWheel
  split
  · rw [setZoom_zoomScale, hmin, hmax]
    exact ⟨LBMath.le_clamp _ _ _, LBMath.clamp_le _ _ _ (by norm_num)⟩
  · split
    · rw [setZoom_zoomScale, hmin, hmax]
      exact ⟨LBMath.le_clamp _ _ _, LBMath.clamp_le _ _ _ (by norm_num)⟩
    · exact ⟨hlo, hhi⟩

/-- C7: for every camera controller with the constructed zoom bounds
[0.025, 150] and an in-range zoom scale, (a) any finite sequence of mouse wheel
events leaves zoomScale inside [0.025, 150]; (b) an up-scroll (deltaY < 0)
strictly decreases the zoom whenever it is above the floor, and never moves it
below the floor; (c) a down-scroll (deltaY > 0) strictly increases the zoom
whenever it is below the ceiling, and never moves it above the ceiling. -/
theorem c7_zoom_bounds (c : CameraController)
    (hmin : c.minZoomScale = 1/40) (hmax : c.maxZoomScale = 150)
    (hlo : 1/40 ≤ c.zoomScale) (hhi : c.zoomScale ≤ 150) :
    (∀ events : List ℚ,
        1/40 ≤ (events.foldl handleMouseWheel c).zoomScale ∧
        (events.foldl handleMouseWheel c).zoomScale ≤ 150) ∧
    (∀ d : ℚ, d < 0 →
        (1/40 < c.zoomScale → (handleMouseWheel c d).zoomScale < c.zoomScale) ∧
        1/40 ≤ (handleMouseWheel c d).zoomScale) ∧
    (∀ d : ℚ, 0 < d →
        (c.zoomScale < 150 → c.zoomScale < (handleMouseWheel c d).zoomScale) ∧
        (handleMouseWheel c d).zoomScale ≤ 150) := by
  refine ⟨?_, ?_, ?_⟩
  · intro events
    induction events generalizing c with
    | nil => exact ⟨hlo, hhi⟩
    | cons e rest ih =>
      simp only [List.foldl_cons]
      have hb := handleMouseWheel_limits c e hmin hmax hlo hhi
      have hk := handleMouseWheel_keeps_limits c e
      exact ih _ (hk.1.trans hmin) (hk.2.trans hmax) hb.1 hb.2
  · intro d hd
    refine ⟨?_, (handleMouseWheel_limits c d hmin hmax hlo hhi).1⟩
    intro hgt
    unfold handleMouseWheel
    rw [if_pos hd, setZoom_zoomScale, hmin, hmax]
    exact LBMath.clamp_shrink_lt _ hgt
  · intro d hd
    refine ⟨?_, (handleMouseWheel_limits c d hmin hmax hlo hhi).2⟩
    intro hlt
    unfold handleMouseWheel
    rw [if_neg (by linarith), if_pos hd, setZoom_zoomScale, hmin, hmax]
    exact LBMath.clamp_grow_gt _ hlo hlt

/-- Witness for c7_zoom_bounds at the constructed controller: the invariant
after the event sequence up, down, down, and both monotonicity facts at
deltaY = -1 and deltaY = 1. -/
theorem c7_zoom_bounds_witness :
    (1/40 ≤ (([-1, 1, 1] : List ℚ).foldl handleMouseWheel initController).zoomScale ∧
      (([-1, 1, 1] : List ℚ).foldl handleMouseWheel initController).zoomScale ≤ 150) ∧
    ((handleMouseWheel initController (-1)).zoomScale < initController.zoomScale) ∧
    (initController.zoomScale < (handleMouseWheel initController 1).zoomScale) := by
  have h := c7_zoom_bounds initController rfl rfl
    (by norm_num [initController]) (by norm_num [initController])
  refine ⟨h.1 [-1, 1, 1], ?_, ?_⟩
  · exact (h.2.1 (-1) (by norm_num)).1 (by norm_num [initController])
  · exact (h.2.2 1 (by norm_num)).1 (by norm_num [initController])

end UI3d

namespace SailSim

/-- A 3-component vector, embedding LBGeometry.Vector3 values. -/
structure Vector3 where
  x : ℚ
  y : ℚ
  z : ℚ
deriving DecidableEq

/-- Vector3.multiplyScalar. -/
def multiplyScalar (v : Vector3) (s : ℚ) : Vector3 := ⟨v.x * s, v.y * s, v.z * s⟩

/-- The rotation (upper 3x3) part of a 4x4 world transform matrix. -/
structure Mat3 where
  m00 : ℚ
  m01 : ℚ
  m02 : ℚ
  m10 : ℚ
  m11 : ℚ
  m12 : ℚ
  m20 : ℚ
  m21 : ℚ
  m22 : ℚ
deriving DecidableEq

/-- Vector3.applyMatrix4Rotation: applies only the rotation part of the
transform. -/
def applyMatrix4Rotation (m : Mat3) (v : Vector3) : Vector3 :=
  ⟨m.m00 * v.x + m.m01 * v.y + m.m02 * v.z,
   m.m10 * v.x + m.m11 * v.y + m.m12 * v.z,
   m.m20 * v.x + m.m21 * v.y + m.m22 * v.z⟩

def identityMat3 : Mat3 := ⟨1, 0, 0, 0, 1, 0, 0, 0, 1⟩

/-- A 4x4 world transform, split into its rotation part and translation. -/
structure WorldXfrm where
  rot : Mat3
  trans : Vector3
deriving DecidableEq

/-- Vector3.applyMatrix4 on the local origin: rotation of zero plus the
translation, so just the translation column of the transform. -/
def worldOrigin (w : WorldXfrm) : Vector3 := w.trans

/-- Squared Euclidean norm of a vector (the squared force magnitude). -/
def normSq (v : Vector3) : ℚ := v.x * v.x + v.y * v.y + v.z * v.z

/-- LBSailSim.Propulsor state (part_001 lines 35 to 41): force magnitude,
unit force direction (default +X), clamp bounds (defaults minForce 0,
maxForce 10), and the coordinate system world transform of the parent
rigid body. -/
structure Propulsor where
  forceMag : ℚ
  forceDir : Vector3
  minForce : ℚ
  maxForce : ℚ
  worldXfrm : WorldXfrm
deriving DecidableEq

/-- LBSailSim.Propulsor.prototype.updateForce: clamps forceMag into
[minForce, maxForce]; if the clamped magnitude is exactly zero, applies
nothing (returns none); otherwise scales forceDir by the clamped magnitude,
rotates it by the world transform rotation, and applies it at the world
position of the local origin. Returns the (force, applicationPoint) pair
passed to addWorldForce. -/
def updateForce (p : Propulsor) : Option (Vector3 × Vector3) :=
  let forceMag := LBMath.clamp p.forceMag p.minForce p.maxForce
  if forceMag = 0 then none
  else
    let force := applyMatrix4Rotation p.worldXfrm.rot (multiplyScalar p.forceDir forceMag)
    some (force, worldOrigin p.worldXfrm)

theorem normSq_multiplyScalar (v : Vector3) (s : ℚ) :
    normSq (multiplyScalar v s) = s * s * normSq v := by
  simp only [normSq, multiplyScalar]
  ring

/-- C9: for a Propulsor with minForce = 0 and maxForce = 10 whose world
rotation preserves squared norms and whose forceDir is a unit vector,
updateForce with forceMag = -5 applies no world force at all, and updateForce
with forceMag = 15 applies the force obtained by rotating forceDir scaled by
exactly 10 through the world rotation, a vector of squared magnitude 100. -/
theorem c9_propulsor_clamp (p : Propulsor)
    (hmin : p.minForce = 0) (hmax : p.maxForce = 10)
    (hrot : ∀ v, normSq (applyMatrix4Rotation p.worldXfrm.rot v) = normSq v)
    (hdir : normSq p.forceDir = 1) :
    updateForce { p with forceMag := -5 } = none ∧
    ∃ f : Vector3 × Vector3,
      updateForce { p with forceMag := 15 } = some f ∧
      f.1 = applyMatrix4Rotation p.worldXfrm.rot (multiplyScalar p.forceDir 10) ∧
      normSq f.1 = 100 := by
  constructor
  · unfold updateForce
    have hc : LBMath.clamp (-5) p.minForce p.maxForce = 0 := by
      rw [hmin, hmax]
      norm_num [LBMath.clamp]
    simp only [hc]
    simp
  · have hc : LBMath.clamp 15 p.minForce p.maxForce = 10 := by
      rw [hmin, hmax]
      norm_num [LBMath.clamp]
    refine ⟨(applyMatrix4Rotation p.worldXfrm.rot (multiplyScalar p.forceDir 10),
             worldOrigin p.worldXfrm), ?_, rfl, ?_⟩
    · unfold updateForce
      simp only [hc]
      norm_num
    · rw [hrot, normSq_multiplyScalar, hdir]
      norm_num

/-- Witness for c9_propulsor_clamp: a propulsor at the identity world
transform with the default +X force direction. -/
theorem c9_propulsor_clamp_witness :
    updateForce { forceMag := -5, forceDir := ⟨1, 0, 0⟩, minForce := 0,
                  maxForce := 10,
                  worldXfrm := ⟨identityMat3, ⟨0, 0, 0⟩⟩ } = none ∧
    ∃ f : Vector3 × Vector3,
      updateForce { forceMag := 15, forceDir := ⟨1, 0, 0⟩, minForce := 0,
                    maxForce := 10,
                    worldXfrm := ⟨identityMat3, ⟨0, 0, 0⟩⟩ } = some f ∧
      f.1 = applyMatrix4Rotation identityMat3 (multiplyScalar ⟨1, 0, 0⟩ 10) ∧
      normSq f.1 = 100 := by
  have h := c9_propulsor_clamp
    { forceMag := 0, forceDir := ⟨1, 0, 0⟩, minForce := 0, maxForce := 10,
      worldXfrm := ⟨identityMat3, ⟨0, 0, 0⟩⟩ }
    rfl rfl
    (by
      intro v
      simp [applyMatrix4Rotation, identityMat3, normSq])
    (by simp [normSq])
  exact h

end SailSim

namespace Assets

/-! LBAssets.MultiLoadCoordinator (js/leeboard/core/Assets.js lines 112 to 244).
The JavaScript object field `_loaderCount` is embedded as loaderCountU; the
distinct property name `loaderCount` read by _markLoadFailed (line 217) is
never assigned anywhere in the source, so it is embedded as an Option that is
always none (reading an absent property yields undefined, and
undefined === 0 is false). Callback invocations are counted instead of run. -/

def NOT_LOADED : Nat := 0
def LOADING : Nat := 1
def LOAD_COMPLETE : Nat := 2
def LOAD_FAILED : Nat := 3

/-- State of one MultiLoadCoordinator: the pending counter `_loaderCount`
(loaderCountU), the never-written `loaderCount` property, the load state, the
presence of the setup callbacks, and how many times each callback has run. -/
structure MultiLoadCoordinator where
  loaderCountU : Int
  loaderCount : Option Int
  loadState : Nat
  hasOnComplete : Bool
  hasOnError : Bool
  onCompleteCalls : Nat
  onErrorCalls : Nat
deriving DecidableEq

/-- A coordinator after the constructor and setup(onComplete, onError). -/
def mkCoordinator : MultiLoadCoordinator :=
  { loaderCountU := 0, loaderCount := none, loadState := NOT_LOADED,
    hasOnComplete := true, hasOnError := true,
    onCompleteCalls := 0, onErrorCalls := 0 }

/-- MultiLoadCoordinator._finishLoad: runs onComplete unless the state is
LOAD_FAILED (then onError), then clears both callbacks. -/
def finishLoad (c : MultiLoadCoordinator) : MultiLoadCoordinator :=
  let c :=
    if c.loadState ≠ LOAD_FAILED then
      let c := { c with loadState := LOAD_COMPLETE }
      if c.hasOnComplete then { c with onCompleteCalls := c.onCompleteCalls + 1 }
      else c
    else
      if c.hasOnError then { c with onErrorCalls := c.onErrorCalls + 1 }
      else c
  { c with hasOnComplete := false, hasOnError := false }

/-- MultiLoadCoordinator.beginLoadCalls: ++this._loaderCount. -/
def beginLoadCalls (c : MultiLoadCoordinator) : MultiLoadCoordinator :=
  { c with loaderCountU := c.loaderCountU + 1 }

/-- MultiLoadCoordinator.getOnLoadFunction: registers one pending unit
(++this._loaderCount) and sets the state to LOADING. The returned wrapper is
the unitLoaded event below. getOnErrorFunction registers nothing; its wrapper
is the unitFailed event below. -/
def getOnLoadFunction (c : MultiLoadCoordinator) : MultiLoadCoordinator :=
  { c with loaderCountU := c.loaderCountU + 1, loadState := LOADING }

/-- MultiLoadCoordinator._markLoadCompleted: decrements `_loaderCount` and
finishes when it reaches zero. -/
def markLoadCompleted (c : MultiLoadCoordinator) : MultiLoadCoordinator :=
  let c := { c with loaderCountU := c.loaderCountU - 1 }
  if c.loaderCountU = 0 then finishLoad c else c

/-- MultiLoadCoordinator.endLoadCalls: calls _markLoadCompleted. -/
def endLoadCalls (c : MultiLoadCoordinator) : MultiLoadCoordinator :=
  markLoadCompleted c

/-- MultiLoadCoordinator._markLoadFailed: decrements `_loaderCount`, sets the
state to LOAD_FAILED, then tests `this.loaderCount === 0`. The source reads
the property `loaderCount` (without the underscore), which is never assigned,
so the comparison is undefined === 0 and always false. -/
def markLoadFailed (c : MultiLoadCoordinator) : MultiLoadCoordinator :=
  let c := { c with loaderCountU := c.loaderCountU - 1, loadState := LOAD_FAILED }
  if c.loaderCount = some 0 then finishLoad c else c

/-- The externally visible events of one coordinator session. -/
inductive MLCEvent where
  | beginCalls
  | endCalls
  | registerUnit
  | unitLoaded
  | unitFailed
deriving DecidableEq

def mlcStep (c : MultiLoadCoordinator) : MLCEvent → MultiLoadCoordinator
  | .beginCalls => beginLoadCalls c
  | .endCalls => endLoadCalls c
  | .registerUnit => getOnLoadFunction c
  | .unitLoaded => markLoadCompleted c
  | .unitFailed => markLoadFailed c

/-- Run a session trace from a freshly set up coordinator. -/
def mlcRun (events : List MLCEvent) : MultiLoadCoordinator :=
  events.foldl mlcStep mkCoordinator

/-- C1, evaluated at the failing input: a session with a single registered
unit that fails (N = 0 successes, M = 1 failure, trace beginLoadCalls,
getOnLoadFunction, endLoadCalls, unit onerror wrapper). All units have
completed (pending count 0) and the state is LOAD_FAILED, yet neither
onComplete nor onError has run, contradicting the claim that exactly one of
them fires exactly once. The slip is that _markLoadFailed tests
this.loaderCount, which no code ever assigns, instead of this._loaderCount. -/
theorem c1_failed_last_unit_fires_no_callback :
    (mlcRun [.beginCalls, .registerUnit, .endCalls, .unitFailed]).loaderCountU = 0 ∧
    (mlcRun [.beginCalls, .registerUnit, .endCalls, .unitFailed]).loadState = LOAD_FAILED ∧
    (mlcRun [.beginCalls, .registerUnit, .endCalls, .unitFailed]).onCompleteCalls = 0 ∧
    (mlcRun [.beginCalls, .registerUnit, .endCalls, .unitFailed]).onErrorCalls = 0 := by
  refine ⟨rfl, rfl, rfl, rfl⟩

end Assets

namespace Assets

/-- JSON values handled by LBAssets.expandIncludes. JSON null is outside the
modelled fragment (the environment data files the loader feeds through this
routine are object/array/number/string/boolean data). -/
inductive JSVal where
  | num (q : ℚ)
  | str (s : String)
  | boolean (b : Bool)
  | arr (elems : List JSVal)
  | obj (fields : List (String × JSVal))

/-- JavaScript property lookup on an object literal (keys are unique in JSON
objects; the first binding wins). -/
def objLookup (fields : List (String × JSVal)) (k : String) : Option JSVal :=
  match fields with
  | [] => none
  | (k0, v0) :: rest => if k0 = k then some v0 else objLookup rest k

/-- JavaScript truthiness of a value. -/
def jsTruthy (v : JSVal) : Bool :=
  match v with
  | .num q => decide (q ≠ 0)
  | .str s => decide (s ≠ "")
  | .boolean b => b
  | .arr _ => true
  | .obj _ => true

/-- Property assignment: overwrite the binding in place if the key exists,
append it otherwise (JavaScript object assignment order semantics). -/
def setKey (fields : List (String × JSVal)) (k : String) (v : JSVal) :
    List (String × JSVal) :=
  match fields with
  | [] => [(k, v)]
  | (k0, v0) :: rest =>
      if k0 = k then (k0, v) :: rest else (k0, v0) :: setKey rest k v

/-- The own enumerable properties Object.assign copies from a source value:
an object contributes its fields, an array its indexed elements, a string its
indexed characters, numbers and booleans nothing. -/
def ownProps (v : JSVal) : List (String × JSVal) :=
  match v with
  | .obj fields => fields
  | .arr elems => (elems.enum.map fun p => (toString p.1, p.2))
  | .str s => (s.toList.enum.map fun p => (toString p.1, JSVal.str (String.mk [p.2])))
  | .num _ => []
  | .boolean _ => []

/-- Object.assign(data, src): fold the source properties onto the target. -/
def objAssign (target src : List (String × JSVal)) : List (String × JSVal) :=
  src.foldl (fun t kv => setKey t kv.1 kv.2) target

/-- The console.log message of expandIncludesInData for a missing includable. -/
def missingMsg (s : String) : String :=
  "LBAssets.expandIncludes(): includable " ++ s ++ " not found."

mutual

/-- expandIncludesInData (Assets.js lines 321 to 344): depth-first recursion
into every child of an object except the literal include key, and into array
elements (arrays are instanceof Object in JavaScript, so they take the same
branch; the Array.isArray branch of the source is unreachable), followed by
the include merge: if the value carries a truthy include property naming a
truthy entry of includables, Object.assign that entry onto it (the include
key remains); a missing or falsy entry only logs. Non-string include values
are outside the modelled fragment (the data files name includables with
strings). Returns the rewritten value together with the logged messages. -/
def expandIncludesInData (inc : List (String × JSVal)) : JSVal → JSVal × List String
  | .num q => (.num q, [])
  | .str s => (.str s, [])
  | .boolean b => (.boolean b, [])
  | .arr elems =>
      let r := expandElems inc elems
      (.arr r.1, r.2)
  | .obj fields =>
      let r := expandFields inc fields
      match objLookup r.1 "include" with
      | some (.str s) =>
          if s ≠ "" then
            match objLookup inc s with
            | some v =>
                if jsTruthy v then (.obj (objAssign r.1 (ownProps v)), r.2)
                else (.obj r.1, r.2 ++ [missingMsg s])
            | none => (.obj r.1, r.2 ++ [missingMsg s])
          else (.obj r.1, r.2)
      | _ => (.obj r.1, r.2)

/-- The Object.keys(data).forEach walk of expandIncludesInData: recurse into
each value whose key is not the literal include key. -/
def expandFields (inc : List (String × JSVal)) :
    List (String × JSVal) → List (String × JSVal) × List String
  | [] => ([], [])
  | (k, v) :: rest =>
      if k = "include" then
        let r := expandFields inc rest
        ((k, v) :: r.1, r.2)
      else
        let rv := expandIncludesInData inc v
        let r := expandFields inc rest
        ((k, rv.1) :: r.1, rv.2 ++ r.2)

/-- Recursion into the elements of an array value. -/
def expandElems (inc : List (String × JSVal)) : List JSVal → List JSVal × List String
  | [] => ([], [])
  | v :: rest =>
      let rv := expandIncludesInData inc v
      let r := expandElems inc rest
      (rv.1 :: r.1, rv.2 ++ r.2)

end

/-- The Object.keys(data).forEach walk of expandIncludes: every top-level
property except includables goes through expandIncludesInData. -/
def expandTopFields (inc : List (String × JSVal)) :
    List (String × JSVal) → List (String × JSVal) × List String
  | [] => ([], [])
  | (k, v) :: rest =>
      if k = "includables" then
        let r := expandTopFields inc rest
        ((k, v) :: r.1, r.2)
      else
        let rv := expandIncludesInData inc v
        let r := expandTopFields inc rest
        ((k, rv.1) :: r.1, rv.2 ++ r.2)

/-- LBAssets.expandIncludes (Assets.js lines 310 to 319): when data carries a
truthy includables property, run expandIncludesInData on the value of every
other top-level property; otherwise return data unchanged. -/
def expandIncludes (data : JSVal) : JSVal × List String :=
  match data with
  | .obj fields =>
      match objLookup fields "includables" with
      | some incVal =>
          if jsTruthy incVal then
            let r := expandTopFields (ownProps incVal) fields
            (.obj r.1, r.2)
          else (data, [])
      | none => (data, [])
  | _ => (data, [])

theorem expandFields_keys (inc : List (String × JSVal))
    (fields : List (String × JSVal)) :
    (expandFields inc fields).1.map Prod.fst = fields.map Prod.fst := by
  induction fields with
  | nil => rfl
  | cons kv rest ih =>
    obtain ⟨k, v⟩ := kv
    unfold expandFields
    by_cases h : k = "include" <;> simp [h, ih]

theorem expandFields_include (inc : List (String × JSVal))
    (fields : List (String × JSVal)) :
    objLookup (expandFields inc fields).1 "include" =
      objLookup fields "include" := by
  induction fields with
  | nil => rfl
  | cons kv rest ih =>
    obtain ⟨k, v⟩ := kv
    unfold expandFields
    by_cases h : k = "include"
    · simp [objLookup, h]
    · simp only [h, if_neg, not_false_iff]
      simp [objLookup, h, ih]

/-- The concrete data object of C8. -/
def c8Data : JSVal :=
  .obj [("includables", .obj [("t", .obj [("a", .num 1), ("b", .num 2)])]),
        ("x", .obj [("include", .str "t"), ("c", .num 3)])]

/-- A data object whose x carries an include naming an absent includable and a
child object carrying a resolvable include. -/
def c8DataMissing : JSVal :=
  .obj [("includables", .obj [("t", .obj [("a", .num 1)])]),
        ("x", .obj [("include", .str "zzz"), ("c", .num 3),
                    ("child", .obj [("include", .str "t")])])]

/-- C8: expandIncludes on the claimed input yields x holding a = 1, b = 2,
c = 3 with the residual include key still present and nothing logged; on an
include naming an absent includables key, the object keeps exactly its own
keys in order (only children are rewritten), its include entry survives
untouched, a message naming the missing includable is logged, and the
function returns a value rather than throwing (children are still
recursed into, as the c8DataMissing evaluation shows). -/
theorem c8_expandIncludes_behavior :
    expandIncludes c8Data =
      (.obj [("includables", .obj [("t", .obj [("a", .num 1), ("b", .num 2)])]),
             ("x", .obj [("include", .str "t"), ("c", .num 3),
                         ("a", .num 1), ("b", .num 2)])], []) ∧
    expandIncludes c8DataMissing =
      (.obj [("includables", .obj [("t", .obj [("a", .num 1)])]),
             ("x", .obj [("include", .str "zzz"), ("c", .num 3),
                         ("child", .obj [("include", .str "t"), ("a", .num 1)])])],
       [missingMsg "zzz"]) ∧
    (∀ (inc fields : List (String × JSVal)) (s : String),
      objLookup (expandFields inc fields).1 "include" = some (.str s) → s ≠ "" →
      objLookup inc s = none →
      expandIncludesInData inc (.obj fields) =
        (.obj (expandFields inc fields).1,
         (expandFields inc fields).2 ++ [missingMsg s]) ∧
      (expandFields inc fields).1.map Prod.fst = fields.map Prod.fst ∧
      objLookup fields "include" = some (.str s)) := by
  refine ⟨rfl, rfl, ?_⟩
  intro inc fields s hinc hs hmiss
  refine ⟨?_, expandFields_keys inc fields, ?_⟩
  · unfold expandIncludesInData
    simp only [hinc, hs, if_pos, hmiss]
    simp [hs]
  · rw [← expandFields_include inc fields]
    exact hinc

/-- Witness for the general conjunct of c8_expandIncludes_behavior at the x
object of c8DataMissing. -/
theorem c8_expandIncludes_behavior_witness :
    expandIncludesInData [("t", .obj [("a", .num 1)])]
        (.obj [("include", .str "zzz"), ("c", .num 3),
               ("child", .obj [("include", .str "t")])]) =
      (.obj [("include", .str "zzz"), ("c", .num 3),
             ("child", .obj [("include", .str "t"), ("a", .num 1)])],
       [missingMsg "zzz"]) := by
  have h := (c8_expandIncludes_behavior.2.2
    [("t", .obj [("a", .num 1)])]
    [("include", .str "zzz"), ("c", .num 3),
     ("child", .obj [("include", .str "t")])]
    "zzz" rfl (by decide) rfl).1
  rw [h]
  rfl

end Assets

namespace SailEnv

/-- A live boat instance. Vessel instances are compared by identity in the
source (boatEntry.boatInstance === boat); the id field makes distinct
instances distinct values. -/
structure Boat where
  id : Nat
  typeName : String
  boatName : String
deriving DecidableEq

/-- A boat catalog slot ({instanceData, boatInstance}); boatInstance is null
until checked out. The instanceData payload plays no role in the checkout
logic and is not carried. -/
structure BoatEntry where
  boatInstance : Option Boat
deriving DecidableEq

/-- The boat data template stored in boatDatas (only its typeName matters to
the catalog logic). -/
structure BoatData where
  typeName : String
deriving DecidableEq

/-- Association list lookup, embedding JavaScript property access on the
dictionary objects boatDatas and boatsByType (undefined = none). -/
def alist.lookup {α : Type} (l : List (String × α)) (k : String) : Option α :=
  match l with
  | [] => none
  | (k0, v0) :: rest => if k0 = k then some v0 else alist.lookup rest k

/-- Association list update of an existing key. -/
def alist.set {α : Type} (l : List (String × α)) (k : String) (v : α) :
    List (String × α) :=
  match l with
  | [] => []
  | (k0, v0) :: rest =>
      if k0 = k then (k0, v) :: rest else (k0, v0) :: alist.set rest k v

/-- Catalog state of LBSailSim.Env: boatDatas (type name to template) and
boatsByType (type name to instance name to slot), plus a counter producing
fresh boat identities. -/
structure Env where
  boatDatas : List (String × BoatData)
  boatsByType : List (String × List (String × BoatEntry))
  nextBoatId : Nat
deriving DecidableEq

/-- JavaScript boatName || fallback: undefined and the empty string both fall
through to the fallback. -/
def jsNameOr (boatName : Option String) (fallback : String) : String :=
  match boatName with
  | none => fallback
  | some s => if s = "" then fallback else s

/-- LBSailSim.Env.isBoatAvailable (part_001 lines 583 to 603): the type must
appear in boatDatas and boatsByType, the instance name defaults to the type
name, and the slot must exist with a null boatInstance. -/
def isBoatAvailable (env : Env) (typeName : String) (boatName : Option String) :
    Bool :=
  match alist.lookup env.boatDatas typeName with
  | none => false
  | some _ =>
      match alist.lookup env.boatsByType typeName with
      | none => false
      | some boatsOfType =>
          match alist.lookup boatsOfType (jsNameOr boatName typeName) with
          | none => false
          | some boatEntry => boatEntry.boatInstance = none

/-- Modelled from the spec: LBSailSim.Vessel.createFromData from the unshown
lbvessel peer module, as wrapped by Env._createBoatInstance (lines 670 to
674). It constructs a fresh vessel from the boat data template; the vessel
carries the template type name, and _createBoatInstance stores the passed
instance name on it (boat.boatName = boatName). -/
def createBoatInstance (env : Env) (boatName : String) (data : BoatData) :
    Env × Boat :=
  ({ env with nextBoatId := env.nextBoatId + 1 },
   { id := env.nextBoatId, typeName := data.typeName, boatName := boatName })

/-- LBSailSim.Env.checkoutBoat (part_001 lines 624 to 657): refuses (returns
undefined, embedded as ok none) when the boat is unavailable or the template
is missing; otherwise defaults boatName with boatName || "" (NOT the type
name used by isBoatAvailable), creates the instance, and stores it in
boatsOfType[boatName]. When that slot lookup yields undefined, the write
boatEntry.boatInstance = boat throws a TypeError (embedded as error). The
geometric placement of the boat and the checkout callbacks do not touch the
catalog and are not modelled. -/
def checkoutBoat (env : Env) (typeName : String) (boatName : Option String) :
    Except String (Env × Option Boat) :=
  if isBoatAvailable env typeName boatName = false then .ok (env, none)
  else
    match alist.lookup env.boatDatas typeName with
    | none => .ok (env, none)
    | some boatData =>
        let bn := jsNameOr boatName ""
        let created := createBoatInstance env bn boatData
        match alist.lookup created.1.boatsByType typeName with
        | none => .error "TypeError: cannot read property of undefined boatsOfType"
        | some boatsOfType =>
            match alist.lookup boatsOfType bn with
            | none =>
                .error "TypeError: cannot set property boatInstance of undefined"
            | some _ =>
                let boatsOfType2 :=
                  alist.set boatsOfType bn { boatInstance := some created.2 }
                .ok ({ created.1 with
                        boatsByType :=
                          alist.set created.1.boatsByType typeName boatsOfType2 },
                     some created.2)

/-- LBSailSim.Env.returnBoat (part_001 lines 699 to 712): reads boat.typeName
first, so a null boat throws a TypeError (embedded as error); otherwise the
slot for (typeName, boatName) is freed and true returned only when it holds
exactly this boat, else false. The return callbacks and boat.destroy() do not
touch the catalog and are not modelled. -/
def returnBoat (env : Env) (boat : Option Boat) : Except String (Env × Bool) :=
  match boat with
  | none => .error "TypeError: cannot read property typeName of null"
  | some b =>
      match alist.lookup env.boatsByType b.typeName with
      | none => .ok (env, false)
      | some boatsOfType =>
          match alist.lookup boatsOfType b.boatName with
          | none => .ok (env, false)
          | some boatEntry =>
              if boatEntry.boatInstance = some b then
                .ok ({ env with
                        boatsByType :=
                          alist.set env.boatsByType b.typeName
                            (alist.set boatsOfType b.boatName
                              { boatInstance := none }) },
                     true)
              else .ok (env, false)

/-- LBSailSim.Env.returnAllBoats (part_001 lines 740 to 749): for every slot
of every type, calls returnBoat on the slot's current boatInstance (null
included). The iteration follows the catalog keys; the slot's live value is
re-read from the threaded environment when the slot still exists. -/
def returnAllBoats (env : Env) : Except String Env :=
  let keys := env.boatsByType.flatMap
    (fun tp => tp.2.map (fun slot => (tp.1, slot.1)))
  keys.foldlM
    (fun e key =>
      match alist.lookup e.boatsByType key.1 with
      | none => pure e
      | some boatsOfType =>
          match alist.lookup boatsOfType key.2 with
          | none => pure e
          | some boatEntry =>
              (returnBoat e boatEntry.boatInstance).map Prod.fst)
    env

/-- The catalog produced by _loadBoatData for a single boat type dinghy with
no instances array: one default slot keyed by the type name, boatInstance
null. -/
def dinghyEnv : Env :=
  { boatDatas := [("dinghy", { typeName := "dinghy" })],
    boatsByType := [("dinghy", [("dinghy", { boatInstance := none })])],
    nextBoatId := 0 }

/-- C2, evaluated at the failing input: on the one-dinghy catalog,
checkoutBoat("dinghy") with the boat name omitted throws a TypeError instead
of returning the boat: isBoatAvailable defaults the instance name to the type
name and reports the slot available, but checkoutBoat then defaults the name
to the empty string, finds no slot under that key, and the write
boatEntry.boatInstance = boat dereferences undefined. -/
theorem c2_checkoutBoat_default_name_crashes :
    isBoatAvailable dinghyEnv "dinghy" none = true ∧
    checkoutBoat dinghyEnv "dinghy" none =
      .error "TypeError: cannot set property boatInstance of undefined" := by
  exact ⟨rfl, rfl⟩

/-- C3, evaluated at the failing input: on the one-dinghy catalog with its
slot never checked out, returnAllBoats passes the null boatInstance to
returnBoat, which dereferences boat.typeName and throws, so returnAllBoats
does not terminate without throwing; returnBoat on a live boat object that is
not the checked out instance of its slot does return false rather than
throwing. -/
theorem c3_returnAllBoats_crashes_on_empty_slot :
    returnAllBoats dinghyEnv =
      .error "TypeError: cannot read property typeName of null" ∧
    returnBoat dinghyEnv
        (some { id := 99, typeName := "dinghy", boatName := "dinghy" }) =
      .ok (dinghyEnv, false) := by
  exact ⟨rfl, rfl⟩

end SailEnv

namespace SailEnv

/-- Supporting fact: with the instance name passed explicitly (as the shown
caller in skybox.html does), the checkout/return cycle behaves as the spec
describes: first checkout succeeds, a second checkout returns an absent
value, returning the boat yields true, and a later checkout produces a new
instance. The one-argument call is the only broken path. -/
theorem checkout_return_cycle_with_explicit_name :
    ∃ env1 boat, checkoutBoat dinghyEnv "dinghy" (some "dinghy") =
        .ok (env1, some boat) ∧
      checkoutBoat env1 "dinghy" (some "dinghy") = .ok (env1, none) ∧
      ∃ env2, returnBoat env1 (some boat) = .ok (env2, true) ∧
        ∃ env3 boat2, checkoutBoat env2 "dinghy" (some "dinghy") =
            .ok (env3, some boat2) ∧ boat2 ≠ boat := by
  refine ⟨_, _, rfl, rfl, _, rfl, _, _, rfl, ?_⟩
  decide

end SailEnv

namespace BigT

/-- One element of fetchRouteIdsAndNames output
(processRoutesResultForIdsAndNames, TheBigT/js/main.js lines 2695 to 2709):
an {id, shortName, longName, type} tuple object. -/
structure RouteIdAndName where
  id : String
  shortName : String
  longName : String
  type : Nat
deriving DecidableEq

/-- An element of the JavaScript Set held in
UIRouteCategory.activeRouteIds. Set membership uses SameValueZero, so a
string id and a tuple object are never equal; loadFromStorage and the
show-all handler insert string ids, while the startup seeding inserts the
tuple objects themselves. -/
inductive ActiveSetElem where
  | idStr (s : String)
  | tuple (r : RouteIdAndName)
deriving DecidableEq

/-- The startup seeding of the subway category (main.js lines 505 to 507):
when nothing was restored from storage, activeRouteIds becomes
new Set(routeIdsAndNames), whose elements are the tuple objects returned by
fetchRouteIdsAndNames. -/
def seedSubwayActive (isLoadedFromStorage : Bool)
    (active : List ActiveSetElem) (routeIdsAndNames : List RouteIdAndName) :
    List ActiveSetElem :=
  if isLoadedFromStorage then active
  else routeIdsAndNames.map ActiveSetElem.tuple

/-- uiCategory.activeRouteIds.has(entry.routeId) (main.js line 336) and every
other membership test against a route id string. -/
def activeHasId (active : List ActiveSetElem) (routeId : String) : Bool :=
  active.contains (ActiveSetElem.idStr routeId)

/-- A concrete subway route list as returned by fetchRouteIdsAndNames for the
light and heavy rail types. -/
def subwayRoutes : List RouteIdAndName :=
  [{ id := "Green-B", shortName := "B", longName := "Green Line B", type := 0 },
   { id := "Red", shortName := "", longName := "Red Line", type := 1 },
   { id := "Orange", shortName := "", longName := "Orange Line", type := 1 },
   { id := "Blue", shortName := "", longName := "Blue Line", type := 1 }]

/-- C6, evaluated at the failing input: with no persisted selection, the
subway category seeding fills activeRouteIds with the {id, shortName,
longName, type} tuple objects rather than the route ids, so the seeded set
does not contain a single subway route id (activeRouteIds.has(routeId) is
false for every route), and it differs from the set of ids the claim
describes. Everywhere else in the file activeRouteIds holds id strings
(loadFromStorage, saveToStorage, the show-all handler adds
routeIdAndName.id), so the subway default never takes effect. -/
theorem c6_seed_contains_tuples_not_ids :
    (∀ r ∈ subwayRoutes,
      activeHasId (seedSubwayActive false [] subwayRoutes) r.id = false) ∧
    seedSubwayActive false [] subwayRoutes ≠
      subwayRoutes.map (fun r => ActiveSetElem.idStr r.id) := by
  exact ⟨by decide, by decide⟩

end BigT

namespace BigT

/-- A JavaScript attribute value as it reaches PredictionEntry: the feed
stores null or a date string in arrival_time / departure_time, and a property
access that has no backing getter yields undefined. -/
inductive JSv where
  | undef
  | null
  | strv (s : String)
deriving DecidableEq

/-- JavaScript truthiness for such a value. -/
def jsvTruthy (v : JSv) : Bool :=
  match v with
  | .undef => false
  | .null => false
  | .strv s => decide (s ≠ "")

/-- JavaScript strict equality (===) on such values. -/
def jsvStrictEq (a b : JSv) : Bool :=
  match a, b with
  | .undef, .undef => true
  | .null, .null => true
  | .strv s, .strv t => decide (s = t)
  | _, _ => false

/-- The attributes of one feed prediction record read by PredictionEntry. -/
structure PredictionAttrs where
  arrival_time : JSv
  departure_time : JSv
deriving DecidableEq

/-- PredictionEntry.getPredictionMsg of the v2 tracker (TheBigT/js/main.js
lines 1903 to 1926). The defined getter is spelled deparatureTime (line
1897), so the read of this.departureTime on line 1905 hits no getter and
yields undefined; fmt stands for dateToHHMMString composed with the Date
constructor, whose internals do not affect the claim. -/
def getPredictionMsgV2 (fmt : JSv → String) (p : PredictionAttrs) : String :=
  let arrival := p.arrival_time
  let departure : JSv := .undef
  if jsvTruthy arrival = false ∧ jsvTruthy departure = false then ""
  else if jsvStrictEq arrival departure then fmt arrival ++ " DEP"
  else
    (if jsvTruthy arrival then
        fmt arrival ++ " ARR" ++ (if jsvTruthy departure then "  " else "")
      else "") ++
      (if jsvTruthy departure then fmt departure ++ " DEP" else "")

/-- PredictionEntry.getPredictionMsg of the v1 prototype (part_001 lines 1592
to 1615); the body and the deparatureTime getter spelling (line 1590) are
identical to v2. -/
def getPredictionMsgV1 (fmt : JSv → String) (p : PredictionAttrs) : String :=
  let arrival := p.arrival_time
  let departure : JSv := .undef
  if jsvTruthy arrival = false ∧ jsvTruthy departure = false then ""
  else if jsvStrictEq arrival departure then fmt arrival ++ " DEP"
  else
    (if jsvTruthy arrival then
        fmt arrival ++ " ARR" ++ (if jsvTruthy departure then "  " else "")
      else "") ++
      (if jsvTruthy departure then fmt departure ++ " DEP" else "")

/-- C10: in both tracker versions, getPredictionMsg never renders a departure
time: for every prediction record and every date formatter, the message is
empty whenever arrival_time is not a nonempty string (whatever
departure_time holds), and otherwise it is exactly the formatted arrival
time suffixed ARR. -/
theorem c10_prediction_msg_no_departure (fmt : JSv → String)
    (p : PredictionAttrs) :
    getPredictionMsgV2 fmt p =
      (if jsvTruthy p.arrival_time then fmt p.arrival_time ++ " ARR" else "") ∧
    getPredictionMsgV1 fmt p =
      (if jsvTruthy p.arrival_time then fmt p.arrival_time ++ " ARR" else "") := by
  obtain ⟨a, d⟩ := p
  cases a with
  | undef => exact ⟨rfl, rfl⟩
  | null => exact ⟨rfl, rfl⟩
  | strv s =>
    by_cases hs : s = ""
    · subst hs
      exact ⟨rfl, rfl⟩
    · constructor
      · unfold getPredictionMsgV2
        simp [jsvTruthy, jsvStrictEq, hs]
      · unfold getPredictionMsgV1
        simp [jsvTruthy, jsvStrictEq, hs]

end BigT

namespace BigT

/-- A queued vehicle layer entry, reduced to the trip id that
processTripIdsToFetch reads from it. -/
structure VehicleEntryT where
  tripId : String
deriving DecidableEq, Inhabited

/-- One prediction entry as consumed by the batching loop: its trip id and
stop sequence. -/
structure Pred where
  tripId : String
  stopSequence : ℤ
deriving DecidableEq, Inhabited

/-- var tripIdsPerFetch = 10 (main.js line 2717). -/
def tripIdsPerFetch : Nat := 10

/-- One step of the vehiclePredictionsToFetch.forEach of
processTripIdsToFetch (main.js lines 2721 to 2732): push the entry onto the
current batch (opening a new one if none is open), and close the batch once
its length exceeds tripIdsPerFetch. The closed-batches list already contains
the open batch in the source (arrays are pushed by reference); here the open
batch is carried separately and appended at the end. -/
def batchStep {α : Type} (acc : List (List α) × Option (List α)) (e : α) :
    List (List α) × Option (List α) :=
  let b := (match acc.2 with | none => [] | some l => l) ++ [e]
  if tripIdsPerFetch < b.length then (acc.1 ++ [b], none) else (acc.1, some b)

def optList {α : Type} : Option (List α) → List α
  | none => []
  | some l => l

/-- The still open batch, as a sublist of the batches list. -/
def optBatch {α : Type} : Option (List α) → List (List α)
  | none => []
  | some b => [b]

/-- The batches built by processTripIdsToFetch from the queued entries. -/
def makeBatches {α : Type} (queue : List α) : List (List α) :=
  let r := queue.foldl batchStep (([], none) : List (List α) × Option (List α))
  r.1 ++ optBatch r.2

theorem foldl_batchStep_sizes {α : Type} (queue : List α) :
    ∀ acc : List (List α) × Option (List α),
      (∀ b ∈ acc.1, b.length ≤ 11) → (∀ b, acc.2 = some b → b.length ≤ 10) →
      (∀ b ∈ (queue.foldl batchStep acc).1, b.length ≤ 11) ∧
        (∀ b, (queue.foldl batchStep acc).2 = some b → b.length ≤ 10) := by
  induction queue with
  | nil => exact fun acc h1 h2 => ⟨h1, h2⟩
  | cons e rest ih =>
    rintro ⟨closed, cur⟩ h1 h2
    simp only [List.foldl_cons]
    apply ih
    all_goals
      unfold batchStep
      cases cur with
      | none =>
        simp only [List.nil_append, List.length_singleton]
        rw [if_neg (by unfold tripIdsPerFetch; omega)]
        first
          | exact h1
          | intro b hb
            simp only [Option.some.injEq] at hb
            subst hb
            simp
      | some l =>
        have hl : l.length ≤ 10 := h2 l rfl
        by_cases hlen : tripIdsPerFetch < (l ++ [e]).length
        · rw [if_pos hlen]
          first
            | intro b hb
              rcases List.mem_append.mp hb with h | h
              · exact h1 b h
              · have := List.mem_singleton.mp h
                subst this
                simp only [List.length_append, List.length_singleton]
                omega
            | intro b hb
              simp at hb
        · rw [if_neg hlen]
          first
            | exact h1
            | intro b hb
              simp only [Option.some.injEq] at hb
              subst hb
              simp only [List.length_append, List.length_singleton]
              unfold tripIdsPerFetch at hlen
              simp only [List.length_append, List.length_singleton] at hlen
              omega

theorem foldl_batchStep_flatten {α : Type} (queue : List α) :
    ∀ acc : List (List α) × Option (List α),
      (queue.foldl batchStep acc).1.flatten ++ optList (queue.foldl batchStep acc).2 =
        acc.1.flatten ++ optList acc.2 ++ queue := by
  induction queue with
  | nil => intro acc; simp
  | cons e rest ih =>
    rintro ⟨closed, cur⟩
    simp only [List.foldl_cons]
    rw [ih]
    have hstep : (batchStep (closed, cur) e).1.flatten ++
        optList (batchStep (closed, cur) e).2 =
        closed.flatten ++ optList cur ++ [e] := by
      unfold batchStep
      cases cur with
      | none =>
        simp only [List.nil_append, List.length_singleton]
        rw [if_neg (by unfold tripIdsPerFetch; omega)]
        simp [optList]
      | some l =>
        by_cases hlen : tripIdsPerFetch < (l ++ [e]).length
        · rw [if_pos hlen]
          simp [optList]
        · rw [if_neg hlen]
          simp [optList]
    rw [hstep]
    simp

theorem makeBatches_sizes {α : Type} (queue : List α) :
    ∀ b ∈ makeBatches queue, b.length ≤ 11 := by
  intro b hb
  unfold makeBatches at hb
  have h := foldl_batchStep_sizes queue ([], none) (by simp) (by simp)
  rcases List.mem_append.mp hb with h1 | h1
  · exact h.1 b h1
  · cases hopt : (queue.foldl batchStep (([], none) : List (List α) × Option (List α))).2 with
    | none => simp [hopt, optBatch] at h1
    | some l =>
      simp only [hopt, optBatch] at h1
      have heq := List.mem_singleton.mp h1
      subst heq
      exact le_trans (h.2 _ hopt) (by norm_num)

theorem makeBatches_flatten {α : Type} (queue : List α) :
    (makeBatches queue).flatten = queue := by
  unfold makeBatches
  have hob : ∀ o : Option (List α), (optBatch o).flatten = optList o := by
    intro o; cases o <;> simp [optBatch, optList]
  simp only [List.flatten_append, hob]
  have h := foldl_batchStep_flatten queue (([], none) : List (List α) × Option (List α))
  simpa [optList] using h

end BigT

namespace BigT

/-- JavaScript Map.set on the tripIdIndexMap: overwrite or append. -/
def jsMapSet (m : List (String × Nat)) (k : String) (v : Nat) :
    List (String × Nat) :=
  match m with
  | [] => [(k, v)]
  | (k0, v0) :: rest =>
      if k0 = k then (k0, v) :: rest else (k0, v0) :: jsMapSet rest k v

/-- JavaScript Map.get on the tripIdIndexMap (undefined = none). -/
def jsMapGet (m : List (String × Nat)) (k : String) : Option Nat :=
  match m with
  | [] => none
  | (k0, v0) :: rest => if k0 = k then some v0 else jsMapGet rest k

/-- The batch.forEach of processTripIdsToFetch (main.js lines 2737 to 2740):
collects tripIds in order and maps each trip id to the index it had when
pushed (tripIds.length at the time, later pushes winning). -/
def buildTripIds (batch : List VehicleEntryT) :
    List String × List (String × Nat) :=
  batch.foldl
    (fun acc e => (acc.1 ++ [e.tripId], jsMapSet acc.2 e.tripId acc.1.length))
    ([], [])

/-- The ordering the comparator comparePredictionEntryStopSequence
(a.stopSequence - b.stopSequence) induces. -/
def predLe (a b : Pred) : Prop := a.stopSequence ≤ b.stopSequence

instance : DecidableRel predLe :=
  fun a b => inferInstanceAs (Decidable (a.stopSequence ≤ b.stopSequence))

instance : IsTotal Pred predLe := ⟨fun a b => Int.le_total _ _⟩

instance : IsTrans Pred predLe := ⟨fun _ _ _ => Int.le_trans⟩

/-- predictionsForVehicles[i].sort(comparePredictionEntryStopSequence): the
comparator orders by stop sequence; engines implement a stable sort, matched
by insertion sort. -/
def sortByStopSequence (l : List Pred) : List Pred := l.insertionSort predLe

/-- predictionsForVehicles[lastIndex] push: append to the slot, creating the
array when the slot is still undefined. -/
def pushAt (arrs : List (Option (List Pred))) (i : Nat) (p : Pred) :
    List (Option (List Pred)) :=
  arrs.set i (some ((match arrs.get? i with
    | some (some l) => l
    | _ => []) ++ [p]))

/-- One step of the predictionEntries.forEach of processTripIdsToFetch
(main.js lines 2746 to 2757). The running lastIndex is none once an unknown
trip id left it undefined; reading batch[lastIndex].tripId then throws. An
entry whose trip id misses the map is skipped but poisons lastIndex. -/
def groupStep (batch : List VehicleEntryT) (m : List (String × Nat))
    (st : Option Nat × List (Option (List Pred))) (p : Pred) :
    Except String (Option Nat × List (Option (List Pred))) :=
  match st.1 with
  | none => .error "TypeError: cannot read property tripId of undefined"
  | some li =>
      match batch.get? li with
      | none => .error "TypeError: cannot read property tripId of undefined"
      | some e =>
          if e.tripId ≠ p.tripId then
            match jsMapGet m p.tripId with
            | none => .ok (none, st.2)
            | some li2 => .ok (some li2, pushAt st.2 li2 p)
          else .ok (some li, pushAt st.2 li p)

/-- The grouping pass of one batch: predictionsForVehicles starts as a sparse
array (all slots undefined), lastIndex starts at 0. -/
def groupPredictions (batch : List VehicleEntryT) (preds : List Pred) :
    Except String (List (Option (List Pred))) :=
  (preds.foldlM (groupStep batch (buildTripIds batch).2)
      (some 0, List.replicate batch.length none)).map Prod.snd

/-- The final attachment loop (main.js lines 2759 to 2766): each vehicle
entry of the batch receives its grouped predictions sorted by stop sequence,
or undefined when no prediction arrived for it. -/
def attachPredictions (batch : List VehicleEntryT)
    (arrs : List (Option (List Pred))) :
    List (VehicleEntryT × Option (List Pred)) :=
  batch.enum.map fun ie =>
    (ie.2,
     match arrs.get? ie.1 with
     | some (some l) => some (sortByStopSequence l)
     | _ => none)

/-- The full processing of one batch given the predictions its fetch
returned. -/
def processBatch (batch : List VehicleEntryT) (preds : List Pred) :
    Except String (List (VehicleEntryT × Option (List Pred))) :=
  (groupPredictions batch preds).map (attachPredictions batch)

/-- The prediction fetches processTripIdsToFetch issues: one
fetchPredictionByTripId call per batch, carrying the trip ids of the batch. -/
def issuedFetches (queue : List VehicleEntryT) : List (List String) :=
  (makeBatches queue).map fun b => (buildTripIds b).1

theorem sorted_sortByStopSequence (l : List Pred) :
    List.Sorted predLe (sortByStopSequence l) :=
  List.sorted_insertionSort predLe l

theorem attachPredictions_sorted (batch : List VehicleEntryT)
    (arrs : List (Option (List Pred))) (e : VehicleEntryT) (l : List Pred)
    (h : (e, some l) ∈ attachPredictions batch arrs) :
    List.Sorted predLe l := by
  unfold attachPredictions at h
  rcases List.mem_map.mp h with ⟨ie, _, heq⟩
  have h2 := congrArg Prod.snd heq
  simp only at h2
  cases hget : arrs.get? ie.1 with
  | none =>
      rw [hget] at h2
      simp at h2
  | some o =>
      cases o with
      | none =>
          rw [hget] at h2
          simp at h2
      | some l0 =>
          rw [hget] at h2
          simp only [Option.some.injEq] at h2
          rw [← h2]
          exact sorted_sortByStopSequence l0

/-- The concrete eleven-entry queue. -/
def q11 : List VehicleEntryT :=
  [⟨"t01"⟩, ⟨"t02"⟩, ⟨"t03"⟩, ⟨"t04"⟩, ⟨"t05"⟩, ⟨"t06"⟩,
   ⟨"t07"⟩, ⟨"t08"⟩, ⟨"t09"⟩, ⟨"t10"⟩, ⟨"t11"⟩]

/-- C4 counterexample: with eleven queued vehicles the claim that every batch
holds at most 10 trip ids fails; the batch-closing test uses a strict
greater-than against tripIdsPerFetch after the push, so a batch is closed
only once it already holds 11 entries. -/
theorem c4_batch_exceeds_ten :
    ¬ (∀ b ∈ makeBatches q11, b.length ≤ 10) := by
  decide

/-- C4 as amended: the queued entries are partitioned, in order, into batches
of at most 11 trip ids (the cap is one more than the claimed 10), one
prediction fetch is issued per batch, and whatever predictions a fetch
returns, every list attached to a vehicle entry by the batch processing is
sorted by stop sequence. -/
theorem c4_amended_batching (queue : List VehicleEntryT) :
    (∀ b ∈ makeBatches queue, b.length ≤ 11) ∧
    (makeBatches queue).flatten = queue ∧
    (issuedFetches queue).length = (makeBatches queue).length ∧
    (∀ batch preds out, processBatch batch preds = .ok out →
      ∀ e l, (e, some l) ∈ out → List.Sorted predLe l) := by
  refine ⟨makeBatches_sizes queue, makeBatches_flatten queue, ?_, ?_⟩
  · unfold issuedFetches
    simp
  · intro batch preds out hout e l hmem
    unfold processBatch at hout
    cases hg : groupPredictions batch preds with
    | error msg => rw [hg] at hout; simp [Except.map] at hout
    | ok arrs =>
        rw [hg] at hout
        simp only [Except.map, Except.ok.injEq] at hout
        rw [← hout] at hmem
        exact attachPredictions_sorted batch arrs e l hmem

/-- Witness for c4_amended_batching: a two-vehicle queue whose single batch
receives out-of-order predictions; the attached list for the first vehicle is
sorted. -/
theorem c4_amended_batching_witness :
    List.Sorted predLe [⟨"a", 1⟩, ⟨"a", 5⟩] := by
  have h := (c4_amended_batching [⟨"a"⟩, ⟨"b"⟩]).2.2.2
    [⟨"a"⟩, ⟨"b"⟩] [⟨"a", 5⟩, ⟨"a", 1⟩]
    (attachPredictions [⟨"a"⟩, ⟨"b"⟩] [some [⟨"a", 5⟩, ⟨"a", 1⟩], none])
    rfl ⟨"a"⟩ [⟨"a", 1⟩, ⟨"a", 5⟩]
  apply h
  decide

end BigT

namespace BigT

/-- A cached StopEntry as read by stopsUpdated: its feed latitude/longitude
(its projected x/y are derived below, as the StopEntry constructor derives
_x/_y from the same projection). -/
structure StopEntryT where
  latitude : ℚ
  longitude : ℚ
deriving DecidableEq

/-- The local planar projection of tlayers (main.js lines 615 to 636),
parameterized by its scale factors: xToLongitudeScale involves
cos(refLatitude) and is irrational, so the embedding quantifies over the
(positive) rational scales instead of fixing them. -/
structure Proj where
  xToLongitudeScale : ℚ
  yToLatitudeScale : ℚ
  refLongitude : ℚ
  refLatitude : ℚ
deriving DecidableEq

def longitudeToX (p : Proj) (longitude : ℚ) : ℚ :=
  (longitude - p.refLongitude) / p.xToLongitudeScale

def latitudeToY (p : Proj) (latitude : ℚ) : ℚ :=
  (latitude - p.refLatitude) / p.yToLatitudeScale

def stopX (p : Proj) (s : StopEntryT) : ℚ := longitudeToX p s.longitude

def stopY (p : Proj) (s : StopEntryT) : ℚ := latitudeToY p s.latitude

/-- JavaScript Map.get with arbitrary value type (undefined = none). -/
def tGet {α : Type} (m : List (String × α)) (k : String) : Option α :=
  match m with
  | [] => none
  | (k0, v0) :: rest => if k0 = k then some v0 else tGet rest k

/-- JavaScript Map.set with arbitrary value type: overwrite or append. -/
def tSet {α : Type} (m : List (String × α)) (k : String) (v : α) :
    List (String × α) :=
  match m with
  | [] => [(k, v)]
  | (k0, v0) :: rest =>
      if k0 = k then (k0, v) :: rest else (k0, v0) :: tSet rest k v

/-- The per-shape state stopsUpdated builds (ShapeLayerEntry fields
_vertexXs, _vertexYs, _segmentLengths, _segmentStopIds,
_stopIdVertexIndices) plus the loop variables. Distances and segment lengths
are carried squared: the source stores and compares square roots, and every
comparison it makes (distance > stopTolerance, distance < lastDistance,
segLength < 1, segmentLength > 1) is invariant under squaring because both
sides are nonnegative, while the quotient u uses segmentLength * segmentLength,
which is exactly the squared length. Number.MAX_VALUE is the none value of
lastDistSq. Vertex indices are integers because the source can store the
JavaScript value vertexCount - 2, which is -1 for a one-vertex polyline. -/
structure ShapeScan where
  vertexXs : List ℚ
  vertexYs : List ℚ
  segLengthSqs : List ℚ
  segStopIds : List String
  stopIdVertexIndices : List (String × ℤ)
  nextStopIndex : Nat
  stopEntryX : ℚ
  stopEntryY : ℚ
  lastX : ℚ
  lastY : ℚ
  lastDistSq : Option ℚ
deriving DecidableEq

/-- How a stopsUpdated run ended: normally, through one of the two
missing-stop early returns (lines 955 and 1007), or by a thrown TypeError
(an out-of-range jsonStops or vertices index). -/
inductive ScanStatus where
  | completed
  | earlyReturn
  | crash
deriving DecidableEq

/-- var stopTolerance = 200, squared. -/
def stopToleranceSq : ℚ := 40000

/-- ShapeLayerEntry.distanceToSegment (main.js lines 1056 to 1075), squared:
the projection parameter u of the point onto the segment
(-1 when the stored segment length is not above 1), the distance to the
segment start when u < 0, to the segment end vertex when u > 1
(distanceToVertex), else the perpendicular distance. -/
def distanceToSegmentSq (xs ys lenSqs : List ℚ) (segmentIndex : Nat)
    (x y : ℚ) : ℚ :=
  let x0 := xs.getD segmentIndex 0
  let y0 := ys.getD segmentIndex 0
  let x1 := xs.getD (segmentIndex + 1) 0
  let y1 := ys.getD (segmentIndex + 1) 0
  let segDx := x1 - x0
  let segDy := y1 - y0
  let dx := x - x0
  let dy := y - y0
  let segLenSq := lenSqs.getD segmentIndex 0
  let u : ℚ := if 1 < segLenSq then (dx * segDx + dy * segDy) / segLenSq else -1
  if u < 0 then dx * dx + dy * dy
  else if 1 < u then (x - x1) * (x - x1) + (y - y1) * (y - y1)
  else
    let ddx := dx - segDx * u
    let ddy := dy - segDy * u
    ddx * ddx + ddy * ddy

/-- The stop-match block of the stopsUpdated loop body (main.js lines 1000 to
1012): record the previous vertex for the pending stop, advance to the next
stop (crash on an out-of-range index, early return when the stop is not
cached), rewrite the segment stop id at index v - 1 and reset the last
distance. -/
def scanAssign (p : Proj) (stops : List (String × StopEntryT))
    (stopIds : List String) (pendingId : String) (v : Nat) (st : ShapeScan) :
    ShapeScan × Option ScanStatus :=
  let st3 := { st with
    stopIdVertexIndices := tSet st.stopIdVertexIndices pendingId ((v : ℤ) - 1) }
  match stopIds.get? (st3.nextStopIndex + 1) with
  | none => (st3, some .crash)
  | some newId =>
      match tGet stops newId with
      | none => (st3, some .earlyReturn)
      | some entry =>
          ({ st3 with
             nextStopIndex := st3.nextStopIndex + 1,
             stopEntryX := stopX p entry,
             stopEntryY := stopY p entry,
             segStopIds := st3.segStopIds.set (v - 1) newId,
             lastDistSq := none }, none)

/-- One iteration of the stopsUpdated vertex loop (main.js lines 963 to
1013), v being the index of the vertex being processed. Pushes the projected
vertex, the squared segment length and the pending stop id; once all interior
stops are matched (continue at line 975) or the segment is degenerate
(continue at line 979) nothing else happens; otherwise the distance from the
previous segment to the next expected stop decides between scanning on
(tracking the shrinking distance) and accepting the match (scanAssign).
Returns the new state and some exit status when the loop returns early. -/
def scanStep (p : Proj) (stops : List (String × StopEntryT))
    (stopIds : List String) (lastStopIndex : Nat) (vtx : ℚ × ℚ) (v : Nat)
    (st : ShapeScan) : ShapeScan × Option ScanStatus :=
  let x := longitudeToX p vtx.2
  let y := latitudeToY p vtx.1
  let dx := x - st.lastX
  let dy := y - st.lastY
  let segLenSq := dx * dx + dy * dy
  match stopIds.get? st.nextStopIndex with
  | none => (st, some .crash)
  | some pendingId =>
      let st1 := { st with
        vertexXs := st.vertexXs ++ [x],
        vertexYs := st.vertexYs ++ [y],
        segLengthSqs := st.segLengthSqs ++ [segLenSq],
        segStopIds := st.segStopIds ++ [pendingId] }
      if lastStopIndex ≤ st1.nextStopIndex then (st1, none)
      else if segLenSq < 1 then (st1, none)
      else
        let st2 := { st1 with lastX := x, lastY := y }
        let dsq := distanceToSegmentSq st2.vertexXs st2.vertexYs
          st2.segLengthSqs (v - 1) st2.stopEntryX st2.stopEntryY
        if stopToleranceSq < dsq then
          match st2.lastDistSq with
          | none => (st2, none)
          | some _ => scanAssign p stops stopIds pendingId v st2
        else
          match st2.lastDistSq with
          | none => ({ st2 with lastDistSq := some dsq }, none)
          | some ld =>
              if dsq < ld then ({ st2 with lastDistSq := some dsq }, none)
              else scanAssign p stops stopIds pendingId v st2

/-- The for loop of stopsUpdated over the remaining vertices: iterate
scanStep until it exits early or the vertices run out. -/
def scanLoop (p : Proj) (stops : List (String × StopEntryT))
    (stopIds : List String) (lastStopIndex : Nat) :
    List (ℚ × ℚ) → Nat → ShapeScan → ShapeScan × ScanStatus
  | [], _, st => (st, .completed)
  | vtx :: rest, v, st =>
      match scanStep p stops stopIds lastStopIndex vtx v st with
      | (st1, none) => scanLoop p stops stopIds lastStopIndex rest (v + 1) st1
      | (st1, some s) => (st1, s)

/-- Line 1020: the last stop is recorded at the final vertex index. -/
def pinLast (stopIds : List String) (lastStopIndex : Nat) (vertexCount : Nat)
    (st : ShapeScan) : ShapeScan × ScanStatus :=
  match stopIds.get? lastStopIndex with
  | none => (st, .crash)
  | some idl =>
      let m := tSet st.stopIdVertexIndices idl ((vertexCount : ℤ) - 1)
      ({ st with stopIdVertexIndices := m }, .completed)

/-- Lines 1015 to 1020 after the loop: when exactly the second-to-last stop
is still pending it is recorded at the second-to-last vertex, then the last
stop is pinned to the final vertex. -/
def finalizeScan (stopIds : List String) (lastStopIndex : Nat)
    (vertexCount : Nat) (st : ShapeScan) : ShapeScan × ScanStatus :=
  if st.nextStopIndex + 1 = lastStopIndex then
    match stopIds.get? st.nextStopIndex with
    | none => (st, .crash)
    | some idn =>
        pinLast stopIds lastStopIndex vertexCount
          { st with
            stopIdVertexIndices :=
              tSet st.stopIdVertexIndices idn ((vertexCount : ℤ) - 2),
            nextStopIndex := st.nextStopIndex + 1 }
  else pinLast stopIds lastStopIndex vertexCount st

/-- ShapeLayerEntry.stopsUpdated (main.js lines 932 to 1053): the prelude
projects the first vertex, records the first stop at vertex 0, resolves the
second stop (early return when it is not cached), then runs the vertex loop
and, when the loop completed, the finish logic. The debug dump controlled by
dumpShapeInfo changes no state and is not modelled. -/
def stopsUpdatedRun (p : Proj) (stops : List (String × StopEntryT))
    (stopIds : List String) (vertices : List (ℚ × ℚ)) :
    ShapeScan × ScanStatus :=
  let emptyScan : ShapeScan :=
    { vertexXs := [], vertexYs := [], segLengthSqs := [], segStopIds := [],
      stopIdVertexIndices := [], nextStopIndex := 1,
      stopEntryX := 0, stopEntryY := 0, lastX := 0, lastY := 0,
      lastDistSq := none }
  match vertices with
  | [] => (emptyScan, .crash)
  | v0 :: vrest =>
      match stopIds.get? 0 with
      | none => (emptyScan, .crash)
      | some id0 =>
          let lastX := longitudeToX p v0.2
          let lastY := latitudeToY p v0.1
          let st0 : ShapeScan :=
            { vertexXs := [lastX], vertexYs := [lastY],
              segLengthSqs := [], segStopIds := [],
              stopIdVertexIndices := [(id0, 0)], nextStopIndex := 1,
              stopEntryX := 0, stopEntryY := 0,
              lastX := lastX, lastY := lastY, lastDistSq := none }
          let lastStopIndex := stopIds.length - 1
          match stopIds.get? 1 with
          | none => (st0, .crash)
          | some id1 =>
              match tGet stops id1 with
              | none => (st0, .earlyReturn)
              | some s1 =>
                  let st1 := { st0 with
                    stopEntryX := stopX p s1, stopEntryY := stopY p s1 }
                  let r := scanLoop p stops stopIds lastStopIndex vrest 1 st1
                  match r.2 with
                  | .completed =>
                      finalizeScan stopIds lastStopIndex vertices.length r.1
                  | _ => r

/-- ShapeLayerEntry.getVertexIndexForStopId. -/
def getVertexIndexForStopId (st : ShapeScan) (stopId : String) : Option ℤ :=
  tGet st.stopIdVertexIndices stopId

end BigT

namespace BigT

theorem tGet_tSet_self {α : Type} (m : List (String × α)) (k : String) (v : α) :
    tGet (tSet m k v) k = some v := by
  induction m with
  | nil => simp [tGet, tSet]
  | cons kv rest ih =>
    obtain ⟨k0, v0⟩ := kv
    unfold tSet
    by_cases h : k0 = k
    · simp [tGet, h]
    · simp [tGet, h, ih]

theorem tGet_tSet_ne {α : Type} (m : List (String × α)) (k k' : String) (v : α)
    (h : k' ≠ k) : tGet (tSet m k v) k' = tGet m k' := by
  induction m with
  | nil => simp [tSet, tGet, Ne.symm h]
  | cons kv rest ih =>
    obtain ⟨k0, v0⟩ := kv
    by_cases h0 : k0 = k
    · subst h0
      simp [tSet, tGet, Ne.symm h]
    · by_cases h1 : k0 = k'
      · simp [tSet, tGet, h0, h1, h]
      · simp [tSet, tGet, h0, h1, ih]

theorem mem_drop_one_of_get? (l : List String) (i : Nat) (k : String)
    (hi : 1 ≤ i) (hk : l.get? i = some k) : k ∈ l.drop 1 := by
  have h1 : (l.drop 1).get? (i - 1) = some k := by
    rw [List.get?_drop]
    have : 1 + (i - 1) = i := by omega
    rw [this]
    exact hk
  exact List.get?_mem h1

/-- The loop invariant of stopsUpdated: nextStopIndex stays between 1 and
lastStopIndex, and the first stop keeps its vertex-0 record. -/
def ScanInv (lastStopIndex : Nat) (id0 : String) (st : ShapeScan) : Prop :=
  1 ≤ st.nextStopIndex ∧ st.nextStopIndex ≤ lastStopIndex ∧
    tGet st.stopIdVertexIndices id0 = some 0

theorem scanAssign_inv (p : Proj) (stops : List (String × StopEntryT))
    (stopIds : List String) (lastStopIndex : Nat) (id0 pendingId : String)
    (v : Nat) (st : ShapeScan)
    (hF : id0 ∉ stopIds.drop 1)
    (hpend : stopIds.get? st.nextStopIndex = some pendingId)
    (hlt : st.nextStopIndex < lastStopIndex)
    (hinv : ScanInv lastStopIndex id0 st) :
    ScanInv lastStopIndex id0 (scanAssign p stops stopIds pendingId v st).1 := by
  obtain ⟨h1, h2, h3⟩ := hinv
  have hmem : pendingId ∈ stopIds.drop 1 :=
    mem_drop_one_of_get? stopIds st.nextStopIndex pendingId h1 hpend
  have hne : id0 ≠ pendingId := fun hc => hF (hc ▸ hmem)
  have hset : tGet (tSet st.stopIdVertexIndices pendingId ((v : ℤ) - 1)) id0 =
      some 0 := by
    rw [tGet_tSet_ne _ _ _ _ hne]
    exact h3
  simp only [scanAssign]
  cases hnext : stopIds.get? (st.nextStopIndex + 1) with
  | none => exact ⟨h1, h2, hset⟩
  | some newId =>
    dsimp only
    cases hstop : tGet stops newId with
    | none => exact ⟨h1, h2, hset⟩
    | some entry => exact ⟨Nat.le_succ_of_le h1, hlt, hset⟩

theorem scanStep_inv (p : Proj) (stops : List (String × StopEntryT))
    (stopIds : List String) (lastStopIndex : Nat) (id0 : String)
    (vtx : ℚ × ℚ) (v : Nat) (st : ShapeScan)
    (hF : id0 ∉ stopIds.drop 1)
    (hinv : ScanInv lastStopIndex id0 st) :
    ScanInv lastStopIndex id0
      (scanStep p stops stopIds lastStopIndex vtx v st).1 := by
  obtain ⟨h1, h2, h3⟩ := hinv
  simp only [scanStep]
  cases hpend : stopIds.get? st.nextStopIndex with
  | none => exact ⟨h1, h2, h3⟩
  | some pendingId =>
    dsimp only
    by_cases hle : lastStopIndex ≤ st.nextStopIndex
    · rw [if_pos hle]
      exact ⟨h1, h2, h3⟩
    · rw [if_neg hle]
      split
      · exact ⟨h1, h2, h3⟩
      · split
        · split
          · exact ⟨h1, h2, h3⟩
          · exact scanAssign_inv p stops stopIds lastStopIndex id0 pendingId v _
              hF hpend (lt_of_not_le hle) ⟨h1, h2, h3⟩
        · split
          · exact ⟨h1, h2, h3⟩
          · split
            · exact ⟨h1, h2, h3⟩
            · exact scanAssign_inv p stops stopIds lastStopIndex id0 pendingId v _
                hF hpend (lt_of_not_le hle) ⟨h1, h2, h3⟩

theorem scanLoop_inv (p : Proj) (stops : List (String × StopEntryT))
    (stopIds : List String) (lastStopIndex : Nat) (id0 : String)
    (hF : id0 ∉ stopIds.drop 1) :
    ∀ (vtxs : List (ℚ × ℚ)) (v : Nat) (st : ShapeScan),
      ScanInv lastStopIndex id0 st →
      ScanInv lastStopIndex id0
        (scanLoop p stops stopIds lastStopIndex vtxs v st).1 := by
  intro vtxs
  induction vtxs with
  | nil =>
    intro v st h
    simpa [scanLoop] using h
  | cons vtx rest ih =>
    intro v st h
    have hstep := scanStep_inv p stops stopIds lastStopIndex id0 vtx v st hF h
    rw [scanLoop]
    cases hs : scanStep p stops stopIds lastStopIndex vtx v st with
    | mk st1 exit =>
      rw [hs] at hstep
      cases exit with
      | none => exact ih (v + 1) st1 hstep
      | some s => exact hstep

end BigT

namespace BigT

theorem pinLast_props (stopIds : List String) (vc : Nat) (st : ShapeScan)
    (id0 : String) (hlen : 2 ≤ stopIds.length)
    (h3 : tGet st.stopIdVertexIndices id0 = some 0)
    (hF : id0 ∉ stopIds.drop 1) :
    tGet (pinLast stopIds (stopIds.length - 1) vc st).1.stopIdVertexIndices
        id0 = some 0 ∧
    tGet (pinLast stopIds (stopIds.length - 1) vc st).1.stopIdVertexIndices
        (stopIds.getD (stopIds.length - 1) "") = some ((vc : ℤ) - 1) ∧
    (pinLast stopIds (stopIds.length - 1) vc st).2 = .completed := by
  cases hgl : stopIds[stopIds.length - 1]? with
  | none =>
    exfalso
    have hle := List.getElem?_eq_none_iff.mp hgl
    omega
  | some idl =>
    have hgl2 : stopIds.get? (stopIds.length - 1) = some idl := by
      rw [List.get?_eq_getElem?]
      exact hgl
    have hne : id0 ≠ idl := fun hc =>
      hF (hc ▸ mem_drop_one_of_get? stopIds (stopIds.length - 1) idl
        (by omega) hgl2)
    have hD : stopIds.getD (stopIds.length - 1) "" = idl := by
      simp [List.getD_eq_getElem?_getD, hgl]
    have hpl1 : (pinLast stopIds (stopIds.length - 1) vc st).1.stopIdVertexIndices =
        tSet st.stopIdVertexIndices idl ((vc : ℤ) - 1) := by
      simp only [pinLast, hgl2]
    have hpl2 : (pinLast stopIds (stopIds.length - 1) vc st).2 = .completed := by
      simp only [pinLast, hgl2]
    rw [hpl1, hD]
    refine ⟨?_, tGet_tSet_self _ _ _, hpl2⟩
    rw [tGet_tSet_ne _ _ _ _ hne]
    exact h3

theorem finalizeScan_props (stopIds : List String) (vc : Nat) (st : ShapeScan)
    (id0 : String) (hlen : 2 ≤ stopIds.length)
    (hinv : ScanInv (stopIds.length - 1) id0 st)
    (hF : id0 ∉ stopIds.drop 1) :
    tGet (finalizeScan stopIds (stopIds.length - 1) vc st).1.stopIdVertexIndices
        id0 = some 0 ∧
    tGet (finalizeScan stopIds (stopIds.length - 1) vc st).1.stopIdVertexIndices
        (stopIds.getD (stopIds.length - 1) "") = some ((vc : ℤ) - 1) ∧
    (finalizeScan stopIds (stopIds.length - 1) vc st).2 = .completed := by
  obtain ⟨h1, h2, h3⟩ := hinv
  unfold finalizeScan
  by_cases hc : st.nextStopIndex + 1 = stopIds.length - 1
  · rw [if_pos hc]
    cases hgn : stopIds.get? st.nextStopIndex with
    | none =>
      exfalso
      rw [List.get?_eq_getElem?] at hgn
      have hle := List.getElem?_eq_none_iff.mp hgn
      omega
    | some idn =>
      have hne : id0 ≠ idn := fun hceq =>
        hF (hceq ▸ mem_drop_one_of_get? stopIds st.nextStopIndex idn h1 hgn)
      have h3s : tGet (tSet st.stopIdVertexIndices idn ((vc : ℤ) - 2)) id0 =
          some 0 := by
        rw [tGet_tSet_ne _ _ _ _ hne]
        exact h3
      exact pinLast_props stopIds vc _ id0 hlen h3s hF
  · rw [if_neg hc]
    exact pinLast_props stopIds vc st id0 hlen h3 hF

/-- The synthetic 3-stop scenario of the claim, in projected coordinates
(unit scales, zero reference): stops at x = 0, 1000, 2000 on the x axis, a
5-vertex polyline whose vertices sit at the stops and halfway between them.
Vertices are (latitude, longitude) pairs as decoded from the feed polyline. -/
def synthProj : Proj := ⟨1, 1, 0, 0⟩

def synthStops : List (String × StopEntryT) :=
  [("sa", ⟨0, 0⟩), ("sm", ⟨0, 1000⟩), ("sz", ⟨0, 2000⟩)]

def synthStopIds : List String := ["sa", "sm", "sz"]

def synthVertices : List (ℚ × ℚ) :=
  [(0, 0), (0, 500), (0, 1000), (0, 1500), (0, 2000)]

/-- The same scenario with the middle stop missing from the stops cache. -/
def synthStopsMissing : List (String × StopEntryT) :=
  [("sa", ⟨0, 0⟩), ("sz", ⟨0, 2000⟩)]

/-- C5 counterexample: on the synthetic 3-stop shape whose middle stop id is
not in the stops cache, stopsUpdated takes the early return of line 955, so
the last stop id is never assigned the final vertex index (the claim says it
always is). -/
theorem c5_missing_stop_unpins_last :
    (stopsUpdatedRun synthProj synthStopsMissing synthStopIds
        synthVertices).2 = .earlyReturn ∧
    ¬ (getVertexIndexForStopId
        (stopsUpdatedRun synthProj synthStopsMissing synthStopIds
          synthVertices).1 "sz" = some ((synthVertices.length : ℤ) - 1)) := by
  norm_num [stopsUpdatedRun, scanLoop, scanStep, scanAssign, distanceToSegmentSq,
    longitudeToX, latitudeToY, stopX, stopY, tGet, tSet, pinLast, finalizeScan,
    getVertexIndexForStopId, stopToleranceSq, synthProj, synthStopsMissing,
    synthStopIds, synthVertices,
    (by decide : ¬ ("sa" : String) = "sm"), (by decide : ¬ ("sa" : String) = "sz"),
    (by decide : ¬ ("sm" : String) = "sz"), (by decide : ¬ ("sm" : String) = "sa"),
    (by decide : ¬ ("sz" : String) = "sa"), (by decide : ¬ ("sz" : String) = "sm")]
  decide

/-- The synthetic run evaluated: the scan completes, the three stops are
assigned vertices 0, 2, 4, and vertex 2 is exactly the projected position of
the middle stop. Proved by evaluation (norm_num drives the rational
arithmetic, the string facts decide the id lookups). -/
theorem synth_run_eval :
    (stopsUpdatedRun synthProj synthStops synthStopIds synthVertices).2 =
      .completed ∧
    getVertexIndexForStopId
        (stopsUpdatedRun synthProj synthStops synthStopIds synthVertices).1
        "sm" = some 2 ∧
    (stopsUpdatedRun synthProj synthStops synthStopIds
        synthVertices).1.vertexXs.getD 2 0 = 1000 ∧
    (stopsUpdatedRun synthProj synthStops synthStopIds
        synthVertices).1.vertexYs.getD 2 0 = 0 := by
  norm_num [stopsUpdatedRun, scanLoop, scanStep, scanAssign, distanceToSegmentSq,
    longitudeToX, latitudeToY, stopX, stopY, tGet, tSet, pinLast, finalizeScan,
    getVertexIndexForStopId, stopToleranceSq, synthProj, synthStops, synthStopIds,
    synthVertices,
    (by decide : ¬ ("sa" : String) = "sm"), (by decide : ¬ ("sa" : String) = "sz"),
    (by decide : ¬ ("sm" : String) = "sz"), (by decide : ¬ ("sm" : String) = "sa"),
    (by decide : ¬ ("sz" : String) = "sa"), (by decide : ¬ ("sz" : String) = "sm")]

/-- C5 as amended: for every projection, stop cache, ordered stop list and
decoded polyline processed by stopsUpdated, provided the run completes its
scan (no missing-stop early return and no out-of-range index) and the first
stop id does not recur later in the list, the first stop id is assigned
vertex index 0 and the last stop id the final vertex index; and on the
synthetic 3-stop shape whose vertices coincide with the stops projected
coordinates plus intermediate filler vertices, the middle stop is assigned
vertex 2, which lies within the 200-unit tolerance of its projected
position. -/
theorem c5_amended_alignment (p : Proj) (stops : List (String × StopEntryT))
    (stopIds : List String) (vertices : List (ℚ × ℚ))
    (hF : stopIds.getD 0 "" ∉ stopIds.drop 1)
    (hrun : (stopsUpdatedRun p stops stopIds vertices).2 = .completed) :
    getVertexIndexForStopId (stopsUpdatedRun p stops stopIds vertices).1
        (stopIds.getD 0 "") = some 0 ∧
    getVertexIndexForStopId (stopsUpdatedRun p stops stopIds vertices).1
        (stopIds.getD (stopIds.length - 1) "") =
      some ((vertices.length : ℤ) - 1) ∧
    (getVertexIndexForStopId
        (stopsUpdatedRun synthProj synthStops synthStopIds synthVertices).1
        "sm" = some 2 ∧
     ((stopsUpdatedRun synthProj synthStops synthStopIds
          synthVertices).1.vertexXs.getD 2 0 - stopX synthProj ⟨0, 1000⟩) *
        ((stopsUpdatedRun synthProj synthStops synthStopIds
          synthVertices).1.vertexXs.getD 2 0 - stopX synthProj ⟨0, 1000⟩) +
       ((stopsUpdatedRun synthProj synthStops synthStopIds
          synthVertices).1.vertexYs.getD 2 0 - stopY synthProj ⟨0, 1000⟩) *
        ((stopsUpdatedRun synthProj synthStops synthStopIds
          synthVertices).1.vertexYs.getD 2 0 - stopY synthProj ⟨0, 1000⟩) ≤
       stopToleranceSq) := by
  have hsynth := synth_run_eval
  have hmid : getVertexIndexForStopId
      (stopsUpdatedRun synthProj synthStops synthStopIds synthVertices).1
      "sm" = some 2 := hsynth.2.1
  have htol : ((stopsUpdatedRun synthProj synthStops synthStopIds
          synthVertices).1.vertexXs.getD 2 0 - stopX synthProj ⟨0, 1000⟩) *
        ((stopsUpdatedRun synthProj synthStops synthStopIds
          synthVertices).1.vertexXs.getD 2 0 - stopX synthProj ⟨0, 1000⟩) +
       ((stopsUpdatedRun synthProj synthStops synthStopIds
          synthVertices).1.vertexYs.getD 2 0 - stopY synthProj ⟨0, 1000⟩) *
        ((stopsUpdatedRun synthProj synthStops synthStopIds
          synthVertices).1.vertexYs.getD 2 0 - stopY synthProj ⟨0, 1000⟩) ≤
       stopToleranceSq := by
    rw [hsynth.2.2.1, hsynth.2.2.2]
    norm_num [stopX, stopY, synthProj, longitudeToX, latitudeToY, stopToleranceSq]
  cases vertices with
  | nil => simp [stopsUpdatedRun] at hrun
  | cons v0 vrest =>
    cases hg0 : stopIds[0]? with
    | none => simp [stopsUpdatedRun, hg0] at hrun
    | some id0 =>
      cases hg1 : stopIds[1]? with
      | none => simp [stopsUpdatedRun, hg0, hg1] at hrun
      | some id1 =>
        cases hs1 : tGet stops id1 with
        | none => simp [stopsUpdatedRun, hg0, hg1, hs1] at hrun
        | some s1 =>
          have hlen : 2 ≤ stopIds.length := by
            obtain ⟨hlt, _⟩ := List.getElem?_eq_some_iff.mp hg1
            omega
          have hid0 : stopIds.getD 0 "" = id0 := by
            simp [List.getD_eq_getElem?_getD, hg0]
          rw [hid0] at hF
          simp only [stopsUpdatedRun, List.get?_eq_getElem?, hg0, hg1, hs1,
            List.length_cons] at hrun ⊢
          set st1 : ShapeScan :=
            { vertexXs := [longitudeToX p v0.2], vertexYs := [latitudeToY p v0.1],
              segLengthSqs := [], segStopIds := [],
              stopIdVertexIndices := [(id0, 0)], nextStopIndex := 1,
              stopEntryX := stopX p s1, stopEntryY := stopY p s1,
              lastX := longitudeToX p v0.2, lastY := latitudeToY p v0.1,
              lastDistSq := none } with hst1
          have hinv1 : ScanInv (stopIds.length - 1) id0 st1 := by
            refine ⟨le_refl 1, ?_, ?_⟩
            · show (1 : ℕ) ≤ stopIds.length - 1
              omega
            · show tGet [(id0, 0)] id0 = some 0
              simp [tGet]
          have hinv := scanLoop_inv p stops stopIds (stopIds.length - 1) id0 hF
            vrest 1 st1 hinv1
          cases hr2 : (scanLoop p stops stopIds (stopIds.length - 1) vrest 1 st1).2 with
          | completed =>
            have hfin := finalizeScan_props stopIds (vrest.length + 1)
              (scanLoop p stops stopIds (stopIds.length - 1) vrest 1 st1).1 id0
              hlen hinv hF
            rw [hid0]
            exact ⟨hfin.1, hfin.2.1, hmid, htol⟩
          | earlyReturn => simp [hr2] at hrun
          | crash => simp [hr2] at hrun

/-- Witness for c5_amended_alignment at the synthetic 3-stop shape: the first
stop is assigned vertex 0 and the last stop the final vertex index 4. -/
theorem c5_amended_alignment_witness :
    getVertexIndexForStopId
        (stopsUpdatedRun synthProj synthStops synthStopIds synthVertices).1
        (synthStopIds.getD 0 "") = some 0 ∧
    getVertexIndexForStopId
        (stopsUpdatedRun synthProj synthStops synthStopIds synthVertices).1
        (synthStopIds.getD (synthStopIds.length - 1) "") =
      some ((synthVertices.length : ℤ) - 1) := by
  have h := c5_amended_alignment synthProj synthStops synthStopIds
    synthVertices (by decide) synth_run_eval.1
  exact ⟨h.1, h.2.1⟩

end BigT
